import Mathlib

/-!
Shallow embedding of the schema registry implemented in
`vendor/github.com/rancher/norman/pkg/types/schemas.go`.

Modelling conventions:
- Go pointers `*Schema` are modelled as references (`Ref := Nat`) into an
  explicit heap (`heap : List Schema`); `schemasByID` and `schemas` hold
  references, exactly as the Go maps/slices hold pointers, so aliasing
  between the map and the ordered slice is represented faithfully.
- Go maps are modelled as association lists with unique keys together with
  lookup / insert / delete operations that have Go map semantics.
- `error` values are modelled by the inductive `GoError`; a nil error is
  `Option.none`.  `MultiErrors` (schemas.go lines 191-193, 227-237) becomes
  the `GoError.multi` constructor, which retains the underlying error list.
- The naming helpers `name.GuessPluralName` and `convert.Capitalize` are
  external collaborators (out of scope per the spec); they are passed in as
  an explicit `Naming` record of pure functions.
- `strings.EqualFold` is modelled as ASCII case folding on the character
  data of the strings.
- The mutex (`sync.Mutex`) only serializes the operations; each operation is
  modelled as a pure state transformer, which corresponds to its behaviour
  under the lock.
-/

namespace SchemasGo

/-- A reference into the schema heap, modelling a Go `*Schema` pointer. -/
abbrev Ref := Nat

/-- The fields of `Schema` that the registry in schemas.go reads or writes:
`ID`, `PluralName`, `CodeName`, `CodeNamePlural` and `Type`. -/
structure Schema where
  ID : String
  PluralName : String := ""
  CodeName : String := ""
  CodeNamePlural : String := ""
  «Type» : String := ""
deriving DecidableEq, Repr

instance : Inhabited Schema := ⟨{ ID := "" }⟩

/-- Go `error` values as this file produces them: a plain error with a
message, or a `MultiErrors` value retaining its list of underlying errors
(schemas.go lines 191-193). -/
inductive GoError where
  | base (msg : String)
  | multi (errs : List GoError)
deriving Repr

mutual

/-- The `Error()` method of an error value; for `MultiErrors` this is
`MultiErrors.Error` of schemas.go lines 227-237. -/
def GoError.errorMsg : GoError → String
  | .base m => m
  | .multi errs => GoError.multiMsg errs ""

/-- The buffer loop of `MultiErrors.Error` (schemas.go lines 228-236):
`buf` is the `bytes.Buffer` content; a `", "` separator is written only when
the buffer is non-empty (`buf.Len() > 0`). -/
def GoError.multiMsg : List GoError → String → String
  | [], buf => buf
  | e :: rest, buf =>
      GoError.multiMsg rest
        (if 0 < buf.length then buf ++ ", " ++ e.errorMsg else buf ++ e.errorMsg)

end

/-- The error aggregator `NewErrors` (schemas.go lines 209-225): drop nil
entries; return nil for an empty result, the single error itself for a
singleton, and a `MultiErrors` otherwise. -/
def NewErrors (inErrors : List (Option GoError)) : Option GoError :=
  let errors := inErrors.filterMap id
  match errors with
  | [] => none
  | [e] => some e
  | es => some (GoError.multi es)

/-- The external pure naming collaborators `name.GuessPluralName` and
`convert.Capitalize`, out of scope per the spec and passed as functions. -/
structure Naming where
  pluralize : String → String
  capitalize : String → String

/-- Association-list lookup with Go map semantics (`m[k]`): the comma-ok
form returns the value for the key, or nothing when the key is absent. -/
def assocFind {α : Type} (l : List (String × α)) (k : String) : Option α :=
  match l with
  | [] => none
  | (k2, v) :: rest => if k2 = k then some v else assocFind rest k

/-- Association-list insertion with Go map semantics (`m[k] = v`): replace
the binding of `k` when present, otherwise add a new binding. -/
def assocInsert {α : Type} (l : List (String × α)) (k : String) (v : α) :
    List (String × α) :=
  match l with
  | [] => [(k, v)]
  | (k2, v2) :: rest =>
      if k2 = k then (k, v) :: rest else (k2, v2) :: assocInsert rest k v

/-- Association-list deletion with Go map semantics (`delete(m, k)`). -/
def assocErase {α : Type} (l : List (String × α)) (k : String) :
    List (String × α) :=
  match l with
  | [] => []
  | (k2, v2) :: rest =>
      if k2 = k then rest else (k2, v2) :: assocErase rest k

/-- The registry state `Schemas` (schemas.go lines 25-36), restricted to the
fields the operations under verification touch.  `heap` realises the Go
pointer store; `schemasByID` and `schemas` hold references into it.  The
mapper type is a parameter `M` since `Mapper` is an interface implemented
entirely by calling code; a `MapperFactory` is modelled by the mapper value
it produces. -/
structure SchemasState (M : Type) where
  heap : List Schema := []
  schemasByID : List (String × Ref) := []
  mappers : List (String × List M) := []
  schemas : List Ref := []
  DefaultMapper : Option M := none
  DefaultPostMapper : Option M := none
deriving DecidableEq

/-- Dereference a schema pointer (`*r`). -/
def heapGet (h : List Schema) (r : Ref) : Schema :=
  h.getD r default

/-- Write through a schema pointer (`*r = v`). -/
def heapSet (h : List Schema) (r : Ref) (v : Schema) : List Schema :=
  h.set r v

/-- The `NewSchemas()` / `EmptySchemas()` empty registry (schemas.go lines
38-54): every map empty, no schemas, no default mapper factories. -/
def emptySchemas (M : Type) : SchemasState M := {}

/-- The Go map read `s.mappers[schemaID]`, as used by `mapper` (schemas.go
lines 162-164) and by `AddMapper`: a missing key yields the zero value,
the empty slice. -/
def mapperGet {M : Type} (st : SchemasState M) (schemaID : String) : List M :=
  (assocFind st.mappers schemaID).getD []

/-- The `AddMapper` method (schemas.go lines 149-152):
`s.mappers[schemaID] = append(s.mappers[schemaID], mapper)`. -/
def addMapper {M : Type} (st : SchemasState M) (schemaID : String) (m : M) :
    SchemasState M :=
  { st with mappers := assocInsert st.mappers schemaID (mapperGet st schemaID ++ [m]) }

/-- The validation error produced at schemas.go line 123:
`fmt.Errorf("ID is not set on schema: %v", schema)`.  The `%v` rendering of
the struct is abstracted to the schema's printed fields. -/
def validationError (sch : Schema) : GoError :=
  GoError.base ("ID is not set on schema: " ++ sch.ID ++ " " ++ sch.PluralName ++ " "
    ++ sch.CodeName ++ " " ++ sch.CodeNamePlural ++ " " ++ sch.«Type»)

/-- Modelled from the spec: the body of `assignMappers` (called at
schemas.go line 134) is not among the sources under review, only its call
site is.  Per the spec (section 4.2), it ensures the schema's chain exists
in the mapper chain store and, when the registry holds a `DefaultMapper`
and/or `DefaultPostMapper` factory, instantiates them and prepends resp.
appends the produced mapper to the chain; it produces no error. -/
def assignMappers {M : Type} (st : SchemasState M) (sch : Schema) :
    SchemasState M :=
  let chain := mapperGet st sch.ID
  let chain := match st.DefaultMapper with
    | some m => m :: chain
    | none => chain
  let chain := match st.DefaultPostMapper with
    | some m => chain ++ [m]
    | none => chain
  { st with mappers := assocInsert st.mappers sch.ID chain }

/-- The `setupDefaults` method (schemas.go lines 120-139).  It mutates the
local copy of the schema (received by pointer from `doAddSchema`) and, via
`assignMappers`, the registry state; both results are returned explicitly.
`Type` is set before the empty-`ID` check, exactly as in the source. -/
def setupDefaults {M : Type} (nm : Naming) (st : SchemasState M) (sch : Schema) :
    Except GoError (Schema × SchemasState M) :=
  let sch := { sch with «Type» := "schema" }
  if sch.ID = "" then
    Except.error (validationError sch)
  else
    let sch := if sch.PluralName = "" then { sch with PluralName := nm.pluralize sch.ID } else sch
    let sch := if sch.CodeName = "" then { sch with CodeName := nm.capitalize sch.ID } else sch
    let sch := if sch.CodeNamePlural = "" then { sch with CodeNamePlural := nm.pluralize sch.CodeName } else sch
    Except.ok (sch, assignMappers st sch)

/-- The `doAddSchema` method (schemas.go lines 104-118): after
`setupDefaults`, either overwrite the existing record through its pointer
(`*existing = schema`), or allocate a fresh record and add its pointer to
both `schemasByID` and the ordered `schemas` slice.  The second component
is the returned `error`. -/
def doAddSchema {M : Type} (nm : Naming) (st : SchemasState M) (sch : Schema) :
    SchemasState M × Option GoError :=
  match setupDefaults nm st sch with
  | Except.error e => (st, some e)
  | Except.ok (sch, st) =>
    match assocFind st.schemasByID sch.ID with
    | some r => ({ st with heap := heapSet st.heap r sch }, none)
    | none =>
        let r := st.heap.length
        ({ st with
            heap := st.heap ++ [sch],
            schemasByID := assocInsert st.schemasByID sch.ID r,
            schemas := st.schemas ++ [r] }, none)

/-- The `AddSchema` method (schemas.go lines 98-102): take the lock and run
`doAddSchema`.  The argument is received by value, as in the Go signature
`AddSchema(schema Schema)`. -/
def addSchema {M : Type} (nm : Naming) (st : SchemasState M) (sch : Schema) :
    SchemasState M × Option GoError :=
  doAddSchema nm st sch

/-- The `doRemoveSchema` method (schemas.go lines 85-88):
`delete(s.schemasByID, schema.ID)` and nothing else. -/
def doRemoveSchema {M : Type} (st : SchemasState M) (sch : Schema) :
    SchemasState M :=
  { st with schemasByID := assocErase st.schemasByID sch.ID }

/-- The `RemoveSchema` method (schemas.go lines 79-83): take the lock and
run `doRemoveSchema`. -/
def removeSchema {M : Type} (st : SchemasState M) (sch : Schema) :
    SchemasState M :=
  doRemoveSchema st sch

/-- ASCII case folding of one character, the effect of `strings.EqualFold`
per character for ASCII input. -/
def foldChar (c : Char) : Char :=
  if 65 ≤ c.toNat ∧ c.toNat ≤ 90 then Char.ofNat (c.toNat + 32) else c

/-- Model of `strings.EqualFold`: case-insensitive string equality. -/
def eqFold (a b : String) : Bool :=
  a.data.map foldChar == b.data.map foldChar

/-- The fallback loop of `doSchema` (schemas.go lines 182-186): scan the
ordered `schemas` slice and return the first entry whose `ID` or
`PluralName` matches case-insensitively. -/
def scanSchemas (h : List Schema) (refs : List Ref) (name2 : String) :
    Option Ref :=
  match refs with
  | [] => none
  | r :: rest =>
      if eqFold (heapGet h r).ID name2 || eqFold (heapGet h r).PluralName name2
      then some r
      else scanSchemas h rest name2

/-- The `doSchema` method (schemas.go lines 170-189): an exact
`schemasByID` lookup under the lock; on a miss, the unlocked linear
alias scan.  The result is the returned `*Schema` pointer, `none` for Go
`nil`. -/
def doSchemaLookup {M : Type} (st : SchemasState M) (name2 : String) :
    Option Ref :=
  match assocFind st.schemasByID name2 with
  | some r => some r
  | none => scanSchemas st.heap st.schemas name2

/-- The `Schema` method (schemas.go lines 166-168): `doSchema(name, true)`. -/
def schemaLookup {M : Type} (st : SchemasState M) (name2 : String) :
    Option Ref :=
  doSchemaLookup st name2

/-- The `AddSchemas` method (schemas.go lines 69-77): for every pointer in
the source registry's `Schemas()` slice, call `AddSchema` on the
dereferenced value, appending each non-nil error; return the aggregate via
the error aggregator.  (`merr.NewErrors` is the same aggregator reused
verbatim per the spec, section 2.) -/
def addSchemas {M : Type} (nm : Naming) (st : SchemasState M)
    (src : SchemasState M) : SchemasState M × Option GoError :=
  let p := src.schemas.foldl
    (fun (acc : SchemasState M × List GoError) r =>
      match addSchema nm acc.1 (heapGet src.heap r) with
      | (st2, some e) => (st2, acc.2 ++ [e])
      | (st2, none) => (st2, acc.2))
    (st, [])
  (p.1, NewErrors (p.2.map some))

/-- Specification-shaped recursion for the batch add: process every schema
in order, threading the state through failures, and collect the errors in
order.  Used to state the best-effort (no short-circuit) property of
`addSchemas`. -/
def addSchemaList {M : Type} (nm : Naming) (st : SchemasState M) :
    List Schema → SchemasState M × List GoError
  | [] => (st, [])
  | sch :: rest =>
      match addSchema nm st sch with
      | (st2, some e) =>
          let p := addSchemaList nm st2 rest
          (p.1, e :: p.2)
      | (st2, none) => addSchemaList nm st2 rest

/-- Well-formedness of a registry state: every pointer stored in
`schemasByID` points into the heap, and the map has no duplicate keys.
Every state reachable through the registry API from `emptySchemas`
satisfies this. -/
def WF {M : Type} (st : SchemasState M) : Prop :=
  (∀ p ∈ st.schemasByID, p.2 < st.heap.length) ∧
  (st.schemasByID.map Prod.fst).Nodup

/-- The `MustAddSchema` method (schemas.go lines 90-96): call `AddSchema`
and abort the process on a non-nil error; the abort is modelled as `none`. -/
def mustAddSchema {M : Type} (nm : Naming) (st : SchemasState M) (sch : Schema) :
    Option (SchemasState M) :=
  match addSchema nm st sch with
  | (st2, none) => some st2
  | (_, some _) => none

/-- The `Errors` field of a `MultiErrors` value (schemas.go line 192), the
underlying error list kept for programmatic inspection; a plain error has
none. -/
def GoError.underlying : GoError → List GoError
  | .base _ => []
  | .multi l => l

/-- Value computed for the schema record by the field-defaulting part of
`setupDefaults`, written in the same sequential shape as the source
(each conditional reads the record produced by the previous one). -/
def normSchema (nm : Naming) (sch : Schema) : Schema :=
  let s1 := { sch with «Type» := "schema" }
  let s2 := if s1.PluralName = "" then { s1 with PluralName := nm.pluralize s1.ID } else s1
  let s3 := if s2.CodeName = "" then { s2 with CodeName := nm.capitalize s2.ID } else s2
  if s3.CodeNamePlural = "" then { s3 with CodeNamePlural := nm.pluralize s3.CodeName } else s3

/-- Normalized schema as the specification states it, field by field:
`Type` is always the tag `"schema"`; `PluralName` is `Pluralize(ID)` when it
was empty, otherwise as supplied; `CodeName` is `Capitalize(ID)` when it was
empty, otherwise as supplied; `CodeNamePlural` is `Pluralize(CodeName)` (for
the possibly-defaulted `CodeName`) when it was empty, otherwise as
supplied. -/
def specNormalized (nm : Naming) (sch : Schema) : Schema :=
  { ID := sch.ID
    PluralName := if sch.PluralName = "" then nm.pluralize sch.ID else sch.PluralName
    CodeName := if sch.CodeName = "" then nm.capitalize sch.ID else sch.CodeName
    CodeNamePlural :=
      if sch.CodeNamePlural = ""
      then nm.pluralize (if sch.CodeName = "" then nm.capitalize sch.ID else sch.CodeName)
      else sch.CodeNamePlural
    «Type» := "schema" }

/-- Concrete naming collaborators for the ground examples below. -/
def nmEx : Naming := ⟨fun s => s ++ "s", fun s => "C" ++ s⟩

/-- Concrete registry holding the schemas `x` (reference 0) and `pod`
(reference 1), built through `addSchema` from the empty registry. -/
def regC1 : SchemasState Nat :=
  (addSchema nmEx ((addSchema nmEx (emptySchemas Nat) { ID := "x" }).1) { ID := "pod" }).1

/-- Concrete registry holding the single schema `pod` (reference 0). -/
def regPod : SchemasState Nat :=
  (addSchema nmEx (emptySchemas Nat) { ID := "pod" }).1

/-- Concrete registry for the precedence example: `pod` (reference 0) and
`x` with plural alias `pod` (reference 1). -/
def regPrec : SchemasState Nat :=
  (addSchema nmEx ((addSchema nmEx (emptySchemas Nat) { ID := "pod" }).1)
    { ID := "x", PluralName := "pod" }).1

/-- Concrete registry holding `x` with plural name `xs` (reference 0). -/
def regX : SchemasState Nat :=
  (addSchema nmEx (emptySchemas Nat) { ID := "x", PluralName := "xs" }).1

/-- Concrete source registry for the batch example: one schema with empty
`ID` and two valid schemas `a` and `b`.  (`AddSchemas` accepts an arbitrary
source registry value; this one is written down directly, as a Go caller
could build the struct.) -/
def srcC7 : SchemasState Nat :=
  { heap := [{ ID := "" }, { ID := "a" }, { ID := "b" }],
    schemasByID := [("", 0), ("a", 1), ("b", 2)],
    schemas := [0, 1, 2] }

/-! Helper lemmas about the association-list model of Go maps. -/

theorem assocFind_insert_self {α : Type} (l : List (String × α)) (k : String) (v : α) :
    assocFind (assocInsert l k v) k = some v := by
  induction l with
  | nil => simp [assocInsert, assocFind]
  | cons p rest ih =>
      obtain ⟨k2, v2⟩ := p
      by_cases h : k2 = k
      · simp [assocInsert, assocFind, h]
      · simp [assocInsert, assocFind, h, ih]

theorem assocFind_insert_ne {α : Type} (l : List (String × α)) (k k3 : String) (v : α)
    (h : k3 ≠ k) : assocFind (assocInsert l k v) k3 = assocFind l k3 := by
  induction l with
  | nil => simp [assocInsert, assocFind, Ne.symm h]
  | cons p rest ih =>
      obtain ⟨k2, v2⟩ := p
      by_cases h2 : k2 = k
      · subst h2
        simp [assocInsert, assocFind, Ne.symm h]
      · simp [assocInsert, assocFind, h2]
        by_cases h3 : k2 = k3
        · simp [h3]
        · simp [h3, ih]

theorem assocFind_erase_ne {α : Type} (l : List (String × α)) (k k3 : String)
    (h : k3 ≠ k) : assocFind (assocErase l k) k3 = assocFind l k3 := by
  induction l with
  | nil => simp [assocErase, assocFind]
  | cons p rest ih =>
      obtain ⟨k2, v2⟩ := p
      by_cases h2 : k2 = k
      · subst h2
        simp [assocErase, assocFind, Ne.symm h]
      · simp [assocErase, assocFind, h2]
        by_cases h3 : k2 = k3
        · simp [h3]
        · simp [h3, ih]

theorem assocFind_eq_none_of_not_mem {α : Type} (l : List (String × α)) (k : String)
    (h : k ∉ l.map Prod.fst) : assocFind l k = none := by
  induction l with
  | nil => rfl
  | cons p rest ih =>
      obtain ⟨k2, v2⟩ := p
      rw [List.map_cons] at h
      have h1 : k ≠ k2 := fun he => h (by simp [he])
      have h2 : k ∉ rest.map Prod.fst := fun hm => h (by simp [hm])
      simp [assocFind, Ne.symm h1, ih h2]

theorem assocFind_erase_self {α : Type} (l : List (String × α)) (k : String)
    (hnd : (l.map Prod.fst).Nodup) : assocFind (assocErase l k) k = none := by
  induction l with
  | nil => rfl
  | cons p rest ih =>
      obtain ⟨k2, v2⟩ := p
      rw [List.map_cons, List.nodup_cons] at hnd
      by_cases h2 : k2 = k
      · subst h2
        simpa [assocErase] using assocFind_eq_none_of_not_mem rest k2 hnd.1
      · simp [assocErase, assocFind, h2, ih hnd.2]

theorem assocErase_of_find_none {α : Type} (l : List (String × α)) (k : String)
    (h : assocFind l k = none) : assocErase l k = l := by
  induction l with
  | nil => rfl
  | cons p rest ih =>
      obtain ⟨k2, v2⟩ := p
      by_cases h2 : k2 = k
      · simp [assocFind, h2] at h
      · simp [assocFind, h2] at h
        simp [assocErase, h2, ih h]

theorem assocFind_mem {α : Type} (l : List (String × α)) (k : String) (v : α)
    (h : assocFind l k = some v) : (k, v) ∈ l := by
  induction l with
  | nil => simp [assocFind] at h
  | cons p rest ih =>
      obtain ⟨k2, v2⟩ := p
      by_cases h2 : k2 = k
      · subst h2
        simp [assocFind] at h
        simp [h]
      · simp [assocFind, h2] at h
        simp [ih h]

/-! Helper lemmas about the schema heap. -/

theorem heapGet_set_self (h : List Schema) (r : Ref) (v : Schema) (hr : r < h.length) :
    heapGet (heapSet h r v) r = v := by
  simp [heapGet, heapSet, List.getD, List.getElem?_set_self, hr]

theorem heapGet_set_ne (h : List Schema) (r r2 : Ref) (v : Schema) (hne : r ≠ r2) :
    heapGet (heapSet h r v) r2 = heapGet h r2 := by
  simp [heapGet, heapSet, List.getD, List.getElem?_set_ne hne]

theorem heapGet_snoc_length (h : List Schema) (v : Schema) :
    heapGet (h ++ [v]) h.length = v := by
  simp [heapGet, List.getD, List.getElem?_concat_length]

theorem heapGet_snoc_lt (h : List Schema) (v : Schema) (r : Ref) (hr : r < h.length) :
    heapGet (h ++ [v]) r = heapGet h r := by
  simp [heapGet, List.getD, List.getElem?_append_left hr]

theorem heapSet_length (h : List Schema) (r : Ref) (v : Schema) :
    (heapSet h r v).length = h.length := by
  simp [heapSet]

/-! Component lemmas: `assignMappers` only writes the mapper chain store. -/

theorem assignMappers_heap {M : Type} (st : SchemasState M) (sch : Schema) :
    (assignMappers st sch).heap = st.heap := rfl

theorem assignMappers_schemasByID {M : Type} (st : SchemasState M) (sch : Schema) :
    (assignMappers st sch).schemasByID = st.schemasByID := rfl

theorem assignMappers_schemas {M : Type} (st : SchemasState M) (sch : Schema) :
    (assignMappers st sch).schemas = st.schemas := rfl

/-! Lemmas about the normalization of a schema's identity fields. -/

theorem normSchema_eq_spec (nm : Naming) (sch : Schema) :
    normSchema nm sch = specNormalized nm sch := by
  simp only [normSchema, specNormalized]
  by_cases h1 : sch.PluralName = "" <;> by_cases h2 : sch.CodeName = "" <;>
    by_cases h3 : sch.CodeNamePlural = "" <;> simp [h1, h2, h3]

theorem normSchema_ID (nm : Naming) (sch : Schema) :
    (normSchema nm sch).ID = sch.ID := by
  rw [normSchema_eq_spec]
  rfl

theorem setupDefaults_ok {M : Type} (nm : Naming) (st : SchemasState M) (sch : Schema)
    (hid : sch.ID ≠ "") :
    setupDefaults nm st sch =
      Except.ok (normSchema nm sch, assignMappers st (normSchema nm sch)) := by
  simp [setupDefaults, normSchema, hid]

theorem setupDefaults_err {M : Type} (nm : Naming) (st : SchemasState M) (sch : Schema)
    (hid : sch.ID = "") :
    setupDefaults nm st sch =
      Except.error (validationError { sch with «Type» := "schema" }) := by
  simp [setupDefaults, hid]

/-! Branch characterizations of `addSchema`. -/

theorem addSchema_existing {M : Type} (nm : Naming) (st : SchemasState M) (sch : Schema)
    (r : Ref) (hid : sch.ID ≠ "") (hfind : assocFind st.schemasByID sch.ID = some r) :
    addSchema nm st sch =
      ({ assignMappers st (normSchema nm sch) with
          heap := heapSet st.heap r (normSchema nm sch) }, none) := by
  simp only [addSchema, doAddSchema, setupDefaults_ok nm st sch hid,
    assignMappers_schemasByID, normSchema_ID, hfind, assignMappers_heap]

theorem addSchema_fresh {M : Type} (nm : Naming) (st : SchemasState M) (sch : Schema)
    (hid : sch.ID ≠ "") (hfind : assocFind st.schemasByID sch.ID = none) :
    addSchema nm st sch =
      ({ assignMappers st (normSchema nm sch) with
          heap := st.heap ++ [normSchema nm sch],
          schemasByID := assocInsert st.schemasByID sch.ID st.heap.length,
          schemas := st.schemas ++ [st.heap.length] }, none) := by
  simp only [addSchema, doAddSchema, setupDefaults_ok nm st sch hid,
    assignMappers_schemasByID, normSchema_ID, hfind, assignMappers_heap,
    assignMappers_schemas]

theorem addSchema_snd_none {M : Type} (nm : Naming) (st : SchemasState M) (sch : Schema)
    (hid : sch.ID ≠ "") : (addSchema nm st sch).2 = none := by
  cases hfind : assocFind st.schemasByID sch.ID with
  | some r => rw [addSchema_existing nm st sch r hid hfind]
  | none => rw [addSchema_fresh nm st sch hid hfind]

theorem addSchema_stored {M : Type} (nm : Naming) (st : SchemasState M) (sch : Schema)
    (hwf : WF st) (hid : sch.ID ≠ "") :
    ((assocFind (addSchema nm st sch).1.schemasByID sch.ID).map
        (fun r => heapGet (addSchema nm st sch).1.heap r)) =
      some (normSchema nm sch) := by
  cases hfind : assocFind st.schemasByID sch.ID with
  | some r =>
      rw [addSchema_existing nm st sch r hid hfind]
      have hr : r < st.heap.length := hwf.1 _ (assocFind_mem _ _ _ hfind)
      simp [assignMappers_schemasByID, hfind, heapGet_set_self st.heap r _ hr]
  | none =>
      rw [addSchema_fresh nm st sch hid hfind]
      simp [assocFind_insert_self, heapGet_snoc_length]

/-! Lemmas about the alias scan. -/

theorem scanSchemas_eq_find (h : List Schema) (refs : List Ref) (a : String) :
    scanSchemas h refs a =
      refs.find? (fun r =>
        eqFold (heapGet h r).ID a || eqFold (heapGet h r).PluralName a) := by
  induction refs with
  | nil => rfl
  | cons r rest ih =>
      by_cases hc : (eqFold (heapGet h r).ID a || eqFold (heapGet h r).PluralName a) = true
      · simp [scanSchemas, hc, List.find?_cons_of_pos]
      · rw [scanSchemas, if_neg (by simpa using hc), ih,
          List.find?_cons_of_neg _ (by simpa using hc)]

/-! Lemmas about the mapper chain store. -/

theorem mapperGet_addMapper_self {M : Type} (st : SchemasState M) (id2 : String) (m : M) :
    mapperGet (addMapper st id2 m) id2 = mapperGet st id2 ++ [m] := by
  simp [mapperGet, addMapper, assocFind_insert_self]

theorem mapperGet_addMapper_ne {M : Type} (st : SchemasState M) (id2 k : String) (m : M)
    (h : k ≠ id2) : mapperGet (addMapper st id2 m) k = mapperGet st k := by
  simp [mapperGet, addMapper, assocFind_insert_ne _ _ _ _ h]

theorem mapperGet_foldl_self {M : Type} (id2 : String) (ms : List M) :
    ∀ st : SchemasState M,
      mapperGet (ms.foldl (fun s m => addMapper s id2 m) st) id2 = mapperGet st id2 ++ ms := by
  induction ms with
  | nil => intro st; simp
  | cons m rest ih =>
      intro st
      rw [List.foldl_cons, ih, mapperGet_addMapper_self, List.append_assoc]
      rfl

theorem mapperGet_foldl_ne {M : Type} (id2 k : String) (ms : List M) (h : k ≠ id2) :
    ∀ st : SchemasState M,
      mapperGet (ms.foldl (fun s m => addMapper s id2 m) st) k = mapperGet st k := by
  induction ms with
  | nil => intro st; rfl
  | cons m rest ih =>
      intro st
      rw [List.foldl_cons, ih, mapperGet_addMapper_ne _ _ _ _ h]

/-! Lemmas about the error aggregator's message construction. -/

theorem length_pos_of_ne_empty (s : String) (h : s ≠ "") : 0 < s.length := by
  cases s with
  | mk data =>
      cases data with
      | nil => exact absurd rfl h
      | cons c cs => simp [String.length]

theorem multiMsg_go (l : List GoError) :
    ∀ buf : String, 0 < buf.length →
      GoError.multiMsg l buf = String.intercalate.go buf ", " (l.map GoError.errorMsg) := by
  induction l with
  | nil => intro buf h; rfl
  | cons e rest ih =>
      intro buf h
      rw [GoError.multiMsg, if_pos h, List.map_cons]
      rw [ih _ (by simp only [String.length_append]; omega)]
      rfl

theorem errorMsg_multi_intercalate (l : List GoError)
    (h : ∀ e ∈ l, GoError.errorMsg e ≠ "") :
    GoError.errorMsg (GoError.multi l) =
      String.intercalate ", " (l.map GoError.errorMsg) := by
  cases l with
  | nil => rfl
  | cons e rest =>
      have he := h e (by simp)
      rw [GoError.errorMsg, GoError.multiMsg,
        if_neg (by simp [String.length_empty])]
      have h0 : ("" ++ e.errorMsg) = e.errorMsg := by simp
      rw [h0, multiMsg_go rest _ (length_pos_of_ne_empty _ he), List.map_cons]
      rfl

/-! Recursion lemma for the batch add. -/

theorem foldl_addSchema_acc {M : Type} (nm : Naming) (hp : List Schema) (l : List Ref) :
    ∀ (st : SchemasState M) (acc : List GoError),
      l.foldl (fun (acc2 : SchemasState M × List GoError) r =>
          match addSchema nm acc2.1 (heapGet hp r) with
          | (st2, some e) => (st2, acc2.2 ++ [e])
          | (st2, none) => (st2, acc2.2)) (st, acc) =
        ((addSchemaList nm st (l.map (fun r => heapGet hp r))).1,
         acc ++ (addSchemaList nm st (l.map (fun r => heapGet hp r))).2) := by
  induction l with
  | nil => intro st acc; simp [addSchemaList]
  | cons r rest ih =>
      intro st acc
      rw [List.foldl_cons, List.map_cons, addSchemaList]
      cases h : addSchema nm st (heapGet hp r) with
      | mk st2 e =>
          cases e with
          | none => simp only [h, ih]
          | some e0 => simp only [h, ih, List.append_assoc, List.singleton_append]

/-! Claim theorems. -/

/-- C1: counterexample.  In the registry `regC1` (schemas `x` at reference 0
and `pod` at reference 1), after `RemoveSchema` on the schema with ID `x`,
the claim says `Schema("x")` returns not-found; instead the lookup falls
through to the alias scan over the retained ordered sequence and returns
the removed schema itself (reference 0), even though the `schemasByID`
entry is gone. -/
theorem claim_C1_counterexample :
    (heapGet regC1.heap 0).ID = "x" ∧
    assocFind (removeSchema regC1 { ID := "x" }).schemasByID "x" = none ∧
    schemaLookup (removeSchema regC1 { ID := "x" }) "x" = some 0 := by
  exact ⟨by decide, by decide, by decide⟩

/-- C1 (amended): for a registry whose `schemasByID` has no duplicate keys,
after `RemoveSchema` on a schema with ID `x` the exact `schemasByID` lookup
for `x` returns not-found, but `Schema("x")` falls through to the
case-insensitive alias scan over the retained ordered sequence (which may
still return the removed schema); a lookup by any string other than `x` —
in particular any alias that previously resolved to a different schema —
resolves exactly as before the removal. -/
theorem claim_C1_remove_then_lookup {M : Type} (st : SchemasState M) (sch : Schema)
    (hnd : (st.schemasByID.map Prod.fst).Nodup) :
    assocFind (removeSchema st sch).schemasByID sch.ID = none ∧
    schemaLookup (removeSchema st sch) sch.ID = scanSchemas st.heap st.schemas sch.ID ∧
    (∀ a, a ≠ sch.ID → schemaLookup (removeSchema st sch) a = schemaLookup st a) := by
  have hself : assocFind (assocErase st.schemasByID sch.ID) sch.ID = none :=
    assocFind_erase_self st.schemasByID sch.ID hnd
  refine ⟨hself, ?_, ?_⟩
  · simp [schemaLookup, doSchemaLookup, removeSchema, doRemoveSchema, hself]
  · intro a ha
    have hfind : assocFind (assocErase st.schemasByID sch.ID) a =
        assocFind st.schemasByID a :=
      assocFind_erase_ne st.schemasByID sch.ID a ha
    cases h2 : assocFind st.schemasByID a with
    | some r => simp [schemaLookup, doSchemaLookup, removeSchema, doRemoveSchema, hfind, h2]
    | none => simp [schemaLookup, doSchemaLookup, removeSchema, doRemoveSchema, hfind, h2]

/-- C1 (amended) witness: the amended statement applied to `regC1` and the
schema with ID `x`; the lookup by the alias `pods` (which resolved to the
`pod` schema before) is unaffected by the removal. -/
theorem claim_C1_remove_then_lookup_witness :
    ((regC1.schemasByID.map Prod.fst).Nodup) ∧
    assocFind (removeSchema regC1 { ID := "x" }).schemasByID "x" = none ∧
    schemaLookup (removeSchema regC1 { ID := "x" }) "pods" = schemaLookup regC1 "pods" := by
  have h := claim_C1_remove_then_lookup regC1 { ID := "x" } (by decide)
  exact ⟨by decide, h.1, h.2.2 "pods" (by decide)⟩

/-- C2: `NewErrors` over a list of possibly-nil errors whose present
messages are non-empty returns nil when no error is present, the single
underlying error itself when exactly one is present, and otherwise a
`MultiErrors` that retains the full list of present errors and whose
message concatenates every present error's message (separated by `", "`). -/
theorem claim_C2_error_aggregation (es : List (Option GoError))
    (hmsg : ∀ e ∈ es.filterMap id, GoError.errorMsg e ≠ "") :
    (es.filterMap id = [] → NewErrors es = none) ∧
    (∀ e, es.filterMap id = [e] → NewErrors es = some e) ∧
    (∀ a b rest, es.filterMap id = a :: b :: rest →
      NewErrors es = some (GoError.multi (a :: b :: rest)) ∧
      (GoError.multi (a :: b :: rest)).underlying = a :: b :: rest ∧
      GoError.errorMsg (GoError.multi (a :: b :: rest)) =
        String.intercalate ", " ((a :: b :: rest).map GoError.errorMsg)) := by
  refine ⟨?_, ?_, ?_⟩
  · intro h
    simp [NewErrors, h]
  · intro e h
    simp [NewErrors, h]
  · intro a b rest h
    refine ⟨by simp [NewErrors, h], rfl, ?_⟩
    apply errorMsg_multi_intercalate
    intro e he
    exact hmsg e (by rw [h]; exact he)

/-- C2 witness: the aggregator on `[a-error, nil, b-error]` produces the
composite error retaining both causes, with message `"a, b"`. -/
theorem claim_C2_error_aggregation_witness :
    (∀ e ∈ ([some (GoError.base "a"), none, some (GoError.base "b")] :
        List (Option GoError)).filterMap id, GoError.errorMsg e ≠ "") ∧
    NewErrors [some (GoError.base "a"), none, some (GoError.base "b")] =
      some (GoError.multi [GoError.base "a", GoError.base "b"]) ∧
    GoError.errorMsg (GoError.multi [GoError.base "a", GoError.base "b"]) = "a, b" := by
  have h := (claim_C2_error_aggregation
      [some (GoError.base "a"), none, some (GoError.base "b")] (by decide)).2.2
      (GoError.base "a") (GoError.base "b") [] rfl
  refine ⟨by decide, h.1, ?_⟩
  rw [h.2.2]
  rfl

/-- C3: registering a schema with non-empty ID succeeds, and the entry the
registry stores under that ID is normalized exactly as specified: `Type` is
the tag `"schema"` unconditionally; `PluralName` is `Pluralize(ID)` iff it
was empty; `CodeName` is `Capitalize(ID)` iff it was empty;
`CodeNamePlural` is `Pluralize(CodeName)` (of the possibly-defaulted
`CodeName`) iff it was empty; non-empty fields are left as supplied. -/
theorem claim_C3_identity_normalization {M : Type} (nm : Naming) (st : SchemasState M)
    (sch : Schema) (hwf : WF st) (hid : sch.ID ≠ "") :
    (addSchema nm st sch).2 = none ∧
    ((assocFind (addSchema nm st sch).1.schemasByID sch.ID).map
        (fun r => heapGet (addSchema nm st sch).1.heap r)) =
      some { ID := sch.ID
             PluralName := if sch.PluralName = "" then nm.pluralize sch.ID else sch.PluralName
             CodeName := if sch.CodeName = "" then nm.capitalize sch.ID else sch.CodeName
             CodeNamePlural :=
               if sch.CodeNamePlural = ""
               then nm.pluralize (if sch.CodeName = "" then nm.capitalize sch.ID else sch.CodeName)
               else sch.CodeNamePlural
             «Type» := "schema" } := by
  refine ⟨addSchema_snd_none nm st sch hid, ?_⟩
  rw [addSchema_stored nm st sch hwf hid, normSchema_eq_spec]
  rfl

/-- C3 witness: registering `{ID:"widget"}` with all derived fields blank
stores `PluralName = Pluralize("widget")`, `CodeName = Capitalize("widget")`,
`CodeNamePlural = Pluralize(Capitalize("widget"))` and `Type = "schema"`. -/
theorem claim_C3_identity_normalization_witness :
    WF (emptySchemas Nat) ∧ ("widget" : String) ≠ "" ∧
    (addSchema nmEx (emptySchemas Nat) { ID := "widget" }).2 = none ∧
    ((assocFind (addSchema nmEx (emptySchemas Nat) { ID := "widget" }).1.schemasByID
        "widget").map
        (fun r => heapGet (addSchema nmEx (emptySchemas Nat) { ID := "widget" }).1.heap r)) =
      some { ID := "widget", PluralName := "widgets", CodeName := "Cwidget",
             CodeNamePlural := "Cwidgets", «Type» := "schema" } := by
  have h := claim_C3_identity_normalization nmEx (emptySchemas Nat) { ID := "widget" }
      (by exact ⟨by decide, by decide⟩) (by decide)
  refine ⟨⟨by decide, by decide⟩, by decide, h.1, ?_⟩
  rw [h.2]
  decide

/-- C4: `Schema(nameOrAlias)` first tries an exact case-sensitive match in
`schemasByID` and returns it on a hit; only on a miss does it linearly scan
the ordered sequence, returning the first entry whose `ID` or `PluralName`
matches case-insensitively (or not-found).  In particular an exact-ID entry
takes precedence over any alias match for the same literal key. -/
theorem claim_C4_lookup_precedence {M : Type} (st : SchemasState M) (a : String) :
    (∀ r, assocFind st.schemasByID a = some r → schemaLookup st a = some r) ∧
    (assocFind st.schemasByID a = none →
      schemaLookup st a =
        st.schemas.find? (fun r =>
          eqFold (heapGet st.heap r).ID a || eqFold (heapGet st.heap r).PluralName a)) := by
  constructor
  · intro r h
    simp [schemaLookup, doSchemaLookup, h]
  · intro h
    simp [schemaLookup, doSchemaLookup, h, scanSchemas_eq_find]

/-- C4 witness: with `{ID:"pod"}` (reference 0) and `{ID:"x",
PluralName:"pod"}` (reference 1) both registered, `Schema("pod")` returns
the entry whose ID is `"pod"`, not the plural-alias match. -/
theorem claim_C4_lookup_precedence_witness :
    assocFind regPrec.schemasByID "pod" = some 0 ∧
    (heapGet regPrec.heap 0).ID = "pod" ∧
    (heapGet regPrec.heap 1).PluralName = "pod" ∧
    schemaLookup regPrec "pod" = some 0 := by
  exact ⟨by decide, by decide, by decide,
    (claim_C4_lookup_precedence regPrec "pod").1 0 (by decide)⟩

/-- C5: for an ID already registered, `AddSchema` overwrites the stored
record in place: `schemasByID` and the ordered sequence are unchanged (so a
previously returned reference — the same heap position — observes the new
normalized contents) and the schema count is unchanged; for a fresh ID it
appends a new entry to both `schemasByID` and the ordered sequence. -/
theorem claim_C5_replace_in_place {M : Type} (nm : Naming) (st : SchemasState M)
    (sch : Schema) (hwf : WF st) (hid : sch.ID ≠ "") :
    (∀ r, assocFind st.schemasByID sch.ID = some r →
      (addSchema nm st sch).2 = none ∧
      (addSchema nm st sch).1.schemasByID = st.schemasByID ∧
      (addSchema nm st sch).1.schemas = st.schemas ∧
      (addSchema nm st sch).1.heap = heapSet st.heap r (specNormalized nm sch) ∧
      heapGet (addSchema nm st sch).1.heap r = specNormalized nm sch ∧
      (addSchema nm st sch).1.heap.length = st.heap.length) ∧
    (assocFind st.schemasByID sch.ID = none →
      (addSchema nm st sch).2 = none ∧
      (addSchema nm st sch).1.schemasByID =
        assocInsert st.schemasByID sch.ID st.heap.length ∧
      (addSchema nm st sch).1.schemas = st.schemas ++ [st.heap.length] ∧
      (addSchema nm st sch).1.heap = st.heap ++ [specNormalized nm sch]) := by
  constructor
  · intro r h
    have hr : r < st.heap.length := hwf.1 _ (assocFind_mem _ _ _ h)
    rw [addSchema_existing nm st sch r hid h]
    refine ⟨rfl, rfl, rfl, ?_, ?_, ?_⟩
    · show heapSet st.heap r (normSchema nm sch) = _
      rw [normSchema_eq_spec]
    · show heapGet (heapSet st.heap r (normSchema nm sch)) r = _
      rw [heapGet_set_self st.heap r _ hr, normSchema_eq_spec]
    · exact heapSet_length st.heap r _
  · intro h
    rw [addSchema_fresh nm st sch hid h]
    refine ⟨rfl, rfl, rfl, ?_⟩
    show st.heap ++ [normSchema nm sch] = _
    rw [normSchema_eq_spec]

/-- C5 witness: registering `{ID:"x", PluralName:"xs"}` then `{ID:"x",
PluralName:"exes"}` leaves one entry under `"x"` at the same heap position
with `PluralName = "exes"`, and the schema count is unchanged. -/
theorem claim_C5_replace_in_place_witness :
    WF regX ∧ ("x" : String) ≠ "" ∧
    assocFind regX.schemasByID "x" = some 0 ∧
    (addSchema nmEx regX { ID := "x", PluralName := "exes" }).1.schemasByID =
      regX.schemasByID ∧
    (addSchema nmEx regX { ID := "x", PluralName := "exes" }).1.schemas = regX.schemas ∧
    heapGet (addSchema nmEx regX { ID := "x", PluralName := "exes" }).1.heap 0 =
      specNormalized nmEx { ID := "x", PluralName := "exes" } ∧
    (heapGet (addSchema nmEx regX { ID := "x", PluralName := "exes" }).1.heap 0).PluralName =
      "exes" ∧
    (addSchema nmEx regX { ID := "x", PluralName := "exes" }).1.heap.length =
      regX.heap.length := by
  have h := (claim_C5_replace_in_place nmEx regX { ID := "x", PluralName := "exes" }
      ⟨by decide, by decide⟩ (by decide)).1 0 (by decide)
  refine ⟨⟨by decide, by decide⟩, by decide, by decide,
    h.2.1, h.2.2.1, h.2.2.2.2.1, ?_, h.2.2.2.2.2⟩
  rw [h.2.2.2.2.1]
  decide

/-- C6: `AddSchema` on a schema with empty ID returns the validation error
(built from the schema after its unconditional `Type := "schema"` update)
and leaves the whole registry state exactly unchanged. -/
theorem claim_C6_empty_id_rejected {M : Type} (nm : Naming) (st : SchemasState M)
    (sch : Schema) (hid : sch.ID = "") :
    addSchema nm st sch = (st, some (validationError { sch with «Type» := "schema" })) := by
  simp [addSchema, doAddSchema, setupDefaults_err nm st sch hid]

/-- C6 witness: `AddSchema({ID:""})` on the one-schema registry `regPod`
returns the validation error and the state is unchanged. -/
theorem claim_C6_empty_id_rejected_witness :
    (({ ID := "" } : Schema).ID = "") ∧
    addSchema nmEx regPod { ID := "" } =
      (regPod, some (validationError { ID := "", «Type» := "schema" })) :=
  ⟨rfl, claim_C6_empty_id_rejected nmEx regPod { ID := "" } rfl⟩

/-- C7: `AddSchemas` attempts `AddSchema` on every schema of the source's
snapshot in order, threading the state through failures (no short-circuit:
the recursion `addSchemaList` visibly continues past an error), and returns
the aggregate of the collected per-item errors.  In particular, merging the
source `srcC7` (one empty-ID schema and the valid `a` and `b`) yields the
aggregate of exactly the one validation failure while both valid schemas
end up registered. -/
theorem claim_C7_batch_best_effort :
    (∀ (M : Type) (nm : Naming) (st src : SchemasState M),
      addSchemas nm st src =
        ((addSchemaList nm st (src.schemas.map (fun r => heapGet src.heap r))).1,
         NewErrors
           ((addSchemaList nm st (src.schemas.map (fun r => heapGet src.heap r))).2.map
             some))) ∧
    (addSchemas nmEx (emptySchemas Nat) srcC7).2 =
      some (validationError { ID := "", «Type» := "schema" }) ∧
    (addSchemas nmEx (emptySchemas Nat) srcC7).1.schemas.length = 2 ∧
    (schemaLookup (addSchemas nmEx (emptySchemas Nat) srcC7).1 "a").isSome = true ∧
    (schemaLookup (addSchemas nmEx (emptySchemas Nat) srcC7).1 "b").isSome = true := by
  refine ⟨?_, rfl, by decide, by decide, by decide⟩
  intro M nm st src
  unfold addSchemas
  rw [foldl_addSchema_acc nm src.heap src.schemas st []]
  simp

/-- C8: `RemoveSchema` deletes exactly the entry keyed by the schema's ID
from `schemasByID` (for a duplicate-free map) and changes nothing else —
heap, ordered sequence, mapper chains and default factories are untouched,
lookups of other keys are unaffected — and removing an absent ID leaves the
whole state unchanged. -/
theorem claim_C8_remove_frame {M : Type} (st : SchemasState M) (sch : Schema)
    (hnd : (st.schemasByID.map Prod.fst).Nodup) :
    (removeSchema st sch).heap = st.heap ∧
    (removeSchema st sch).schemas = st.schemas ∧
    (removeSchema st sch).mappers = st.mappers ∧
    (removeSchema st sch).DefaultMapper = st.DefaultMapper ∧
    (removeSchema st sch).DefaultPostMapper = st.DefaultPostMapper ∧
    assocFind (removeSchema st sch).schemasByID sch.ID = none ∧
    (∀ k, k ≠ sch.ID →
      assocFind (removeSchema st sch).schemasByID k = assocFind st.schemasByID k) ∧
    (assocFind st.schemasByID sch.ID = none → removeSchema st sch = st) := by
  refine ⟨rfl, rfl, rfl, rfl, rfl,
    assocFind_erase_self st.schemasByID sch.ID hnd,
    fun k hk => assocFind_erase_ne st.schemasByID sch.ID k hk,
    fun h => ?_⟩
  show { st with schemasByID := assocErase st.schemasByID sch.ID } = st
  rw [assocErase_of_find_none st.schemasByID sch.ID h]

/-- C8 witness: removing `x` from `regC1` leaves the ordered sequence and
mapper chains untouched and the `pod` entry findable; removing the absent
ID `absent` is a no-op. -/
theorem claim_C8_remove_frame_witness :
    ((regC1.schemasByID.map Prod.fst).Nodup) ∧
    (removeSchema regC1 { ID := "x" }).schemas = regC1.schemas ∧
    (removeSchema regC1 { ID := "x" }).mappers = regC1.mappers ∧
    assocFind (removeSchema regC1 { ID := "x" }).schemasByID "x" = none ∧
    assocFind (removeSchema regC1 { ID := "x" }).schemasByID "pod" =
      assocFind regC1.schemasByID "pod" ∧
    removeSchema regC1 { ID := "absent" } = regC1 := by
  have h := claim_C8_remove_frame regC1 ({ ID := "x" } : Schema) (by decide)
  have h2 := claim_C8_remove_frame regC1 ({ ID := "absent" } : Schema) (by decide)
  exact ⟨by decide, h.2.1, h.2.2.1, h.2.2.2.2.2.1,
    h.2.2.2.2.2.2.1 "pod" (by decide), h2.2.2.2.2.2.2.2 (by decide)⟩

/-- C9: appending mappers for a schema ID yields a chain holding exactly
the previously stored mappers followed by the appended ones in order;
chains of other IDs are untouched; and querying the chain of an ID in the
fresh registry — where no mapper was ever added — yields the empty
sequence (the Go zero-value map read, not a missing-key failure). -/
theorem claim_C9_mapper_chain {M : Type} (st : SchemasState M) (id2 : String)
    (ms : List M) :
    mapperGet (ms.foldl (fun s m => addMapper s id2 m) st) id2 = mapperGet st id2 ++ ms ∧
    (∀ k, k ≠ id2 →
      mapperGet (ms.foldl (fun s m => addMapper s id2 m) st) k = mapperGet st k) ∧
    mapperGet (emptySchemas M) id2 = [] :=
  ⟨mapperGet_foldl_self id2 ms st, fun k hk => mapperGet_foldl_ne id2 k ms hk st, rfl⟩

/-- C9 witness: appending `7` then `9` to the chain of `x` in the empty
registry yields exactly `[7, 9]`; the chain of `y` stays empty. -/
theorem claim_C9_mapper_chain_witness :
    mapperGet (([7, 9] : List Nat).foldl (fun s m => addMapper s "x" m) (emptySchemas Nat)) "x" =
      mapperGet (emptySchemas Nat) "x" ++ [7, 9] ∧
    ("y" : String) ≠ "x" ∧
    mapperGet (([7, 9] : List Nat).foldl (fun s m => addMapper s "x" m) (emptySchemas Nat)) "y" =
      mapperGet (emptySchemas Nat) "y" ∧
    mapperGet (emptySchemas Nat) "x" = [] ∧
    mapperGet (([7, 9] : List Nat).foldl (fun s m => addMapper s "x" m) (emptySchemas Nat)) "x" =
      [7, 9] := by
  have h := claim_C9_mapper_chain (emptySchemas Nat) "x" [7, 9]
  refine ⟨h.1, by decide, h.2.1 "y" (by decide), h.2.2, ?_⟩
  rw [h.1]
  decide

/-- C10: `AddSchema` receives its argument by value (the Go signature
`AddSchema(schema Schema)`), so the registry operates on its own copy: no
heap record other than the one the registry itself keys under the schema's
ID is touched; the normalization is visible through the stored entry, which
differs from the supplied value whenever normalization changed it (here
witnessed through the unconditional `Type` update); and `MustAddSchema`
behaves as `AddSchema` when registration succeeds. -/
theorem claim_C10_operates_on_copy {M : Type} (nm : Naming) (st : SchemasState M)
    (sch : Schema) (hwf : WF st) (hid : sch.ID ≠ "") :
    (∀ r, r < st.heap.length → assocFind st.schemasByID sch.ID ≠ some r →
      heapGet (addSchema nm st sch).1.heap r = heapGet st.heap r) ∧
    ((assocFind (addSchema nm st sch).1.schemasByID sch.ID).map
        (fun r => heapGet (addSchema nm st sch).1.heap r)) =
      some (specNormalized nm sch) ∧
    (sch.«Type» ≠ "schema" → specNormalized nm sch ≠ sch) ∧
    mustAddSchema nm st sch = some (addSchema nm st sch).1 := by
  refine ⟨?_, ?_, ?_, ?_⟩
  · intro r hr hne
    cases hfind : assocFind st.schemasByID sch.ID with
    | some r0 =>
        rw [addSchema_existing nm st sch r0 hid hfind]
        show heapGet (heapSet st.heap r0 (normSchema nm sch)) r = heapGet st.heap r
        have hner : r0 ≠ r := fun he => hne (he ▸ hfind)
        exact heapGet_set_ne st.heap r0 r _ hner
    | none =>
        rw [addSchema_fresh nm st sch hid hfind]
        exact heapGet_snoc_lt st.heap _ r hr
  · rw [← normSchema_eq_spec]
    exact addSchema_stored nm st sch hwf hid
  · intro ht heq
    exact ht (((congrArg (fun s => Schema.«Type» s) heq).symm).trans rfl)
  · have h2 := addSchema_snd_none nm st sch hid
    cases h3 : addSchema nm st sch with
    | mk st2 e =>
        rw [h3] at h2
        have h4 : e = none := h2
        subst h4
        unfold mustAddSchema
        rw [h3]

/-- C10 witness: adding `widget` to the one-schema registry `regPod` leaves
the `pod` record (reference 0) untouched, stores the normalized copy of the
argument — which differs from the supplied value — and `MustAddSchema`
agrees with `AddSchema`. -/
theorem claim_C10_operates_on_copy_witness :
    WF regPod ∧ ("widget" : String) ≠ "" ∧
    (0 : Ref) < regPod.heap.length ∧
    assocFind regPod.schemasByID "widget" ≠ some 0 ∧
    heapGet (addSchema nmEx regPod { ID := "widget" }).1.heap 0 = heapGet regPod.heap 0 ∧
    ((assocFind (addSchema nmEx regPod { ID := "widget" }).1.schemasByID "widget").map
        (fun r => heapGet (addSchema nmEx regPod { ID := "widget" }).1.heap r)) =
      some (specNormalized nmEx { ID := "widget" }) ∧
    (({ ID := "widget" } : Schema).«Type» ≠ "schema") ∧
    specNormalized nmEx { ID := "widget" } ≠ ({ ID := "widget" } : Schema) ∧
    mustAddSchema nmEx regPod { ID := "widget" } =
      some (addSchema nmEx regPod { ID := "widget" }).1 := by
  have h := claim_C10_operates_on_copy nmEx regPod { ID := "widget" }
      ⟨by decide, by decide⟩ (by decide)
  exact ⟨⟨by decide, by decide⟩, by decide, by decide, by decide,
    h.1 0 (by decide) (by decide), h.2.1, by decide, h.2.2.1 (by decide), h.2.2.2⟩

end SchemasGo
